import Mathlib

/-!
Shallow embedding of the AlphaFold3 sequential batch orchestrator
(`src/Alphafold3/run_alphafold3_batch.py`) and of the status-reading part of
the score extractor (`src/Alphafold3/extract_af3_confidence_scores.py`).

Modelling conventions:
- all text (file names, marker contents, diagnostic streams) is `List Char`;
- a job output directory is a record of the four status markers
  (`af3.done`, `af3.running`, `af3.error`, `af3.timeout`), each an
  `Option` of its content, plus the list of non-marker result files;
- the cross-run durable state is an association list from job id (the input
  artifact stem) to its output directory; a missing entry is the empty
  directory (directory creation with `exist_ok=True` has no marker effect);
- file-system commands (`cp`, `cp -r`, `rm -rf`, `makedirs`) are atomic:
  they either fully succeed or fail having copied nothing; their possible
  failures, and the engine subprocess outcome, are supplied by a per-job
  `AttemptEvent` oracle;
- wall-clock strings (`time.strftime`, formatted durations) are parameters.
-/

namespace AF3

abbrev Text := List Char

/-- `String.toList` shorthand for embedding the literal strings of the source. -/
def str (s : String) : Text := s.toList

/-- One job output directory `outputs_dir / job_name`: the four status
markers with their contents, and the non-marker files it holds. -/
structure JobDir where
  done : Option Text
  running : Option Text
  error : Option Text
  timeout : Option Text
  files : List Text
deriving DecidableEq

def emptyJobDir : JobDir := ⟨none, none, none, none, []⟩

/-- Result of `check_job_status` in `run_alphafold3_batch.py`. -/
inductive BatchStatus where
  | completed
  | running
  | ready
deriving DecidableEq

/-- `check_job_status` (run_alphafold3_batch.py lines 17-31): `af3.done`
present means completed, else `af3.running` present means running, else
ready (error and timeout markers do not block a retry). -/
def check_job_status (d : JobDir) : BatchStatus :=
  if d.done.isSome then .completed
  else if d.running.isSome then .running
  else .ready

/-- The `status` values assigned by `extract_confidence_scores`
(extract_af3_confidence_scores.py lines 32-50). -/
inductive ExtractStatus where
  | completed
  | running
  | failed
  | timedout
  | not_started
deriving DecidableEq

/-- Status derivation of `extract_confidence_scores` (lines 32-50): the
marker checks in source order `done`, `running`, `error`, `timeout`. -/
def extract_status (d : JobDir) : ExtractStatus :=
  if d.done.isSome then .completed
  else if d.running.isSome then .running
  else if d.error.isSome then .failed
  else if d.timeout.isSome then .timedout
  else .not_started

/-- Python `str.strip()` on the marker content. -/
def pyStrip (l : Text) : Text :=
  ((l.dropWhile Char.isWhitespace).reverse.dropWhile Char.isWhitespace).reverse

/-- The `error_message` field produced by `extract_confidence_scores`
(line 41): read only when the effective status is failed, and truncated to
200 characters by `f.read().strip()[:200]`. -/
def extract_error_message (d : JobDir) : Option Text :=
  if d.done.isSome then none
  else if d.running.isSome then none
  else
    match d.error with
    | some c => some ((pyStrip c).take 200)
    | none => none

/-- The process configuration read through `os.environ` inside
`run_single_prediction` (lines 67-68). -/
structure Env where
  DB_DIR : Option Text
  ALPHAFOLD_DIR : Option Text
deriving DecidableEq

/-- Content of the `af3.running` marker (lines 46-47). -/
def runningContent (timeStr : Text) : Text :=
  str "Started at: " ++ timeStr ++ str "\n"

/-- Content of the `af3.done` marker (lines 98-100). -/
def doneContent (timeStr durStr : Text) : Text :=
  str "Completed at: " ++ timeStr ++ str "\n" ++
  str "Duration: " ++ durStr ++ str " seconds\n"

/-- Content of the `af3.error` marker on a non-zero engine exit
(lines 118-125): headers followed by the FULL stdout and stderr. -/
def errorContent (timeStr : Text) (rc : Int) (durStr stdout stderr : Text) : Text :=
  str "Failed at: " ++ timeStr ++ str "\n" ++
  str "Return code: " ++ (toString rc).toList ++ str "\n" ++
  str "Duration: " ++ durStr ++ str " seconds\n" ++
  str "\nSTDOUT:\n" ++ stdout ++
  str "\nSTDERR:\n" ++ stderr

/-- Content of the `af3.error` marker written by the generic exception
handler (lines 140-142). -/
def faultContent (timeStr msg : Text) : Text :=
  str "Error at: " ++ timeStr ++ str "\n" ++
  str "Error: " ++ msg ++ str "\n"

/-- Content of the `af3.timeout` marker (lines 133-134). -/
def timeoutContent (timeStr : Text) : Text :=
  str "Timed out at: " ++ timeStr ++ str "\n"

/-- Oracle for one execution attempt: what the file-system commands and the
engine subprocess do inside the `try` block of `run_single_prediction`.
`stageFault` is a failure of scratch creation or of the input `cp`
(lines 54-59), before the environment is read; `collectFault` is a failure
of the result `cp -r` after a zero engine exit (line 95). -/
inductive AttemptEvent where
  | stageFault (msg : Text)
  | engineExit (rc : Int) (stdout stderr : Text) (outFiles : List Text)
  | engineTimeout
  | collectFault (msg : Text)

/-- How one attempt inside the `try` block resolves. -/
inductive Outcome where
  | success (stdout stderr : Text) (outFiles : List Text)
  | engineFail (rc : Int) (stdout stderr : Text)
  | timedOut
  | fault (msg : Text)

/-- Resolution order of the `try` block (lines 49-129): staging faults fire
first (lines 54-59); then the `os.environ` lookups while building the
command (lines 67-68) raise `KeyError` when `DB_DIR` or `ALPHAFOLD_DIR` is
unset — caught by the generic handler like any other exception; only then
does the engine subprocess run and its exit code or timeout decide. -/
def resolveAttempt (env : Env) (ev : AttemptEvent) : Outcome :=
  match ev, env.DB_DIR, env.ALPHAFOLD_DIR with
  | .stageFault m, _, _ => .fault m
  | _, none, _ => .fault (str "KeyError: DB_DIR")
  | _, some _, none => .fault (str "KeyError: ALPHAFOLD_DIR")
  | .engineTimeout, some _, some _ => .timedOut
  | .collectFault m, some _, some _ => .fault m
  | .engineExit rc out err ofs, some _, some _ =>
      if rc = 0 then .success out err ofs else .engineFail rc out err

/-- What `run_single_prediction` returns and leaves behind: the boolean it
returns, the job directory afterwards, and whether the per-attempt scratch
directories `/tmp/af_input_...` and `/tmp/af_output_...` still exist. -/
structure AttemptResult where
  success : Bool
  dir : JobDir
  scratchInputLeft : Bool
  scratchOutputLeft : Bool
deriving DecidableEq

/-- The `finally` block (lines 146-149): `rm -rf` on both scratch
directories, on every exit path of the `try`. -/
def finallyRelease (r : AttemptResult) : AttemptResult :=
  { r with scratchInputLeft := false, scratchOutputLeft := false }

/-- `run_single_prediction` (lines 33-149) on one job directory: write the
`af3.running` marker (lines 45-47), create the scratch directories, resolve
the attempt, and in each branch write the corresponding marker, remove the
running marker, and return True only on a zero exit; the `finally` block
then removes both scratch directories. On success the results are copied
from scratch into the permanent directory (line 95); on every other branch
nothing is copied. -/
def run_single_prediction (env : Env) (timeStr durStr : Text) (ev : AttemptEvent)
    (d : JobDir) : AttemptResult :=
  let d1 : JobDir := { d with running := some (runningContent timeStr) }
  let tryResult : AttemptResult :=
    match resolveAttempt env ev with
    | .success _ _ ofs =>
        { success := true
          dir := { d1 with files := d1.files ++ ofs
                           done := some (doneContent timeStr durStr)
                           running := none }
          scratchInputLeft := true
          scratchOutputLeft := true }
    | .engineFail rc out err =>
        { success := false
          dir := { d1 with error := some (errorContent timeStr rc durStr out err)
                           running := none }
          scratchInputLeft := true
          scratchOutputLeft := true }
    | .timedOut =>
        { success := false
          dir := { d1 with timeout := some (timeoutContent timeStr)
                           running := none }
          scratchInputLeft := true
          scratchOutputLeft := true }
    | .fault m =>
        { success := false
          dir := { d1 with error := some (faultContent timeStr m)
                           running := none }
          scratchInputLeft := true
          scratchOutputLeft := true }
  finallyRelease tryResult

/-- `pathlib.Path.stem` on a file name matched by `glob("*.json")`: every
such name ends in the suffix `.json`, so the stem drops the last 5
characters. -/
def stem (f : Text) : Text := f.take (f.length - 5)

/-- Python string comparison (lexicographic by code point), as used by
`sorted` on the equal-directory paths returned by `glob`. -/
def lexLt : Text → Text → Bool
  | [], [] => false
  | [], _ :: _ => true
  | _ :: _, [] => false
  | a :: as, b :: bs =>
      if a < b then true else if b < a then false else lexLt as bs

/-- Insert into an ascending list, keeping an earlier element before equal
later ones (Python `sorted` is stable). -/
def insertFile (x : Text) : List Text → List Text
  | [] => [x]
  | y :: ys => if lexLt y x then y :: insertFile x ys else x :: y :: ys

/-- `sorted(list(inputs_dir.glob("*.json")))` (line 163): ascending
lexicographic order of the file names. -/
def sortFiles (l : List Text) : List Text := l.foldr insertFile []

/-- The durable cross-run state: job id (stem) to its output directory.
A job id without an entry has the empty directory. -/
abbrev St := List (Text × JobDir)

def getDir : St → Text → JobDir
  | [], _ => emptyJobDir
  | (k, v) :: rest, id => if k = id then v else getDir rest id

def setDir (st : St) (id : Text) (d : JobDir) : St := (id, d) :: st

/-- The initial status loop (lines 176-187) as far as the recovery gate
needs it: how many jobs currently have effective status running. -/
def runningCount (files : List Text) (st : St) : Nat :=
  (files.filter (fun f => check_job_status (getDir st (stem f)) = .running)).length

/-- The stale-marker cleanup loop (lines 194-198): for each job in order,
if its status is running, unlink its `af3.running` marker. -/
def clearRunningAll : List Text → St → St
  | [], st => st
  | f :: fs, st =>
      let id := stem f
      let d := getDir st id
      let st2 := if check_job_status d = .running then setDir st id { d with running := none } else st
      clearRunningAll fs st2

/-- The state after the gated recovery pass (lines 192-198): the cleanup
loop runs only when the initial status count found a running job. -/
def recoveredState (files : List Text) (st : St) : St :=
  let sorted := sortFiles files
  if 0 < runningCount sorted st then clearRunningAll sorted st else st

/-- Result of the main sequential pass: final state, the two counters the
code keeps (`successful_predictions`, `failed_predictions`), the number of
skip branches taken, and the ordered job ids passed to
`run_single_prediction`. -/
structure PassResult where
  state : St
  successCnt : Nat
  failedCnt : Nat
  skippedCnt : Nat
  attempts : List Text
deriving DecidableEq

/-- The main sequential loop (lines 204-226): for each file in order,
re-check the status; skip when completed or running; otherwise run the
prediction and count its boolean result. -/
def mainPass (env : Env) (timeStr durStr : Text) (ev : Text → AttemptEvent) :
    List Text → St → PassResult
  | [], st => ⟨st, 0, 0, 0, []⟩
  | f :: fs, st =>
      let id := stem f
      let d := getDir st id
      match check_job_status d with
      | .completed =>
          let r := mainPass env timeStr durStr ev fs st
          { r with skippedCnt := r.skippedCnt + 1 }
      | .running =>
          let r := mainPass env timeStr durStr ev fs st
          { r with skippedCnt := r.skippedCnt + 1 }
      | .ready =>
          let a := run_single_prediction env timeStr durStr (ev id) d
          let r := mainPass env timeStr durStr ev fs (setDir st id a.dir)
          { state := r.state
            successCnt := r.successCnt + (if a.success then 1 else 0)
            failedCnt := r.failedCnt + (if a.success then 0 else 1)
            skippedCnt := r.skippedCnt
            attempts := id :: r.attempts }

/-- Result of a whole `main()` invocation, with the process exit code. -/
structure RunSummary where
  state : St
  successCnt : Nat
  failedCnt : Nat
  skippedCnt : Nat
  attempts : List Text
  exit : Nat
deriving DecidableEq

/-- `main` (lines 151-245): sort the catalog, `sys.exit(1)` when it is
empty (lines 165-167), run the gated recovery pass, then the main
sequential pass; a completed pass exits 0. -/
def mainRun (env : Env) (timeStr durStr : Text) (ev : Text → AttemptEvent)
    (files : List Text) (st : St) : RunSummary :=
  let sorted := sortFiles files
  if sorted.isEmpty then
    { state := st, successCnt := 0, failedCnt := 0, skippedCnt := 0, attempts := [], exit := 1 }
  else
    let st1 := recoveredState files st
    let p := mainPass env timeStr durStr ev sorted st1
    { state := p.state, successCnt := p.successCnt, failedCnt := p.failedCnt,
      skippedCnt := p.skippedCnt, attempts := p.attempts, exit := 0 }

/-- Number of occurrences of a job id in a list of ids. -/
def countId (id : Text) : List Text → Nat
  | [] => 0
  | x :: xs => (if x = id then 1 else 0) + countId id xs

theorem getDir_setDir_same (st : St) (id : Text) (d : JobDir) :
    getDir (setDir st id d) id = d := by
  simp [getDir, setDir]

theorem getDir_setDir_ne (st : St) (id j : Text) (d : JobDir) (h : id ≠ j) :
    getDir (setDir st id d) j = getDir st j := by
  simp [getDir, setDir, h]

theorem mem_insertFile (x y : Text) (l : List Text) :
    y ∈ insertFile x l ↔ y = x ∨ y ∈ l := by
  induction l with
  | nil => simp [insertFile]
  | cons z zs ih =>
      by_cases h : lexLt z x = true
      · simp only [insertFile, h, if_true, List.mem_cons, ih]
        tauto
      · simp only [insertFile, h, if_false, Bool.false_eq_true, List.mem_cons]

theorem mem_sortFiles (y : Text) (l : List Text) :
    y ∈ sortFiles l ↔ y ∈ l := by
  induction l with
  | nil => simp [sortFiles]
  | cons z zs ih =>
      simp only [sortFiles, List.foldr_cons] at *
      rw [mem_insertFile]
      simp [ih]

theorem length_insertFile (x : Text) (l : List Text) :
    (insertFile x l).length = l.length + 1 := by
  induction l with
  | nil => simp [insertFile]
  | cons z zs ih =>
      by_cases h : lexLt z x = true
      · simp [insertFile, h, ih]
      · simp [insertFile, h]

theorem length_sortFiles (l : List Text) :
    (sortFiles l).length = l.length := by
  induction l with
  | nil => simp [sortFiles]
  | cons z zs ih =>
      simp only [sortFiles, List.foldr_cons] at *
      rw [length_insertFile, ih]
      simp

theorem countId_eq_zero (x : Text) (l : List Text) (h : x ∉ l) :
    countId x l = 0 := by
  induction l with
  | nil => simp [countId]
  | cons z zs ih =>
      simp only [List.mem_cons, not_or] at h
      have hz : z ≠ x := fun hzx => h.1 hzx.symm
      simp [countId, hz, ih h.2]

theorem mem_of_countId_pos (x : Text) (l : List Text) (h : 0 < countId x l) :
    x ∈ l := by
  induction l with
  | nil => simp [countId] at h
  | cons z zs ih =>
      by_cases hz : z = x
      · exact hz ▸ List.mem_cons_self z zs
      · simp only [countId, hz, if_false] at h
        exact List.mem_cons_of_mem z (ih (by omega))

theorem mainPass_counts (env : Env) (t d : Text) (ev : Text → AttemptEvent) :
    ∀ (fs : List Text) (st : St),
      (mainPass env t d ev fs st).successCnt + (mainPass env t d ev fs st).failedCnt +
        (mainPass env t d ev fs st).skippedCnt = fs.length := by
  intro fs
  induction fs with
  | nil => intro st; simp [mainPass]
  | cons f fs ih =>
      intro st
      cases h : check_job_status (getDir st (stem f)) with
      | completed =>
          have := ih st
          simp only [mainPass, h, List.length_cons]
          omega
      | running =>
          have := ih st
          simp only [mainPass, h, List.length_cons]
          omega
      | ready =>
          have := ih (setDir st (stem f)
            (run_single_prediction env t d (ev (stem f)) (getDir st (stem f))).dir)
          simp only [mainPass, h, List.length_cons]
          cases (run_single_prediction env t d (ev (stem f)) (getDir st (stem f))).success <;>
            simp <;> omega

theorem mainPass_attempts_length (env : Env) (t d : Text) (ev : Text → AttemptEvent) :
    ∀ (fs : List Text) (st : St),
      (mainPass env t d ev fs st).attempts.length =
        (mainPass env t d ev fs st).successCnt + (mainPass env t d ev fs st).failedCnt := by
  intro fs
  induction fs with
  | nil => intro st; simp [mainPass]
  | cons f fs ih =>
      intro st
      cases h : check_job_status (getDir st (stem f)) with
      | completed =>
          have := ih st
          simp only [mainPass, h]
          omega
      | running =>
          have := ih st
          simp only [mainPass, h]
          omega
      | ready =>
          have := ih (setDir st (stem f)
            (run_single_prediction env t d (ev (stem f)) (getDir st (stem f))).dir)
          simp only [mainPass, h, List.length_cons]
          cases (run_single_prediction env t d (ev (stem f)) (getDir st (stem f))).success <;>
            simp <;> omega

theorem mainPass_attempts_mem (env : Env) (t d : Text) (ev : Text → AttemptEvent) :
    ∀ (fs : List Text) (st : St) (x : Text),
      x ∈ (mainPass env t d ev fs st).attempts → x ∈ fs.map stem := by
  intro fs
  induction fs with
  | nil => intro st x hx; simp [mainPass] at hx
  | cons f fs ih =>
      intro st x hx
      cases h : check_job_status (getDir st (stem f)) with
      | completed =>
          simp only [mainPass, h] at hx
          exact List.mem_cons_of_mem _ (ih st x hx)
      | running =>
          simp only [mainPass, h] at hx
          exact List.mem_cons_of_mem _ (ih st x hx)
      | ready =>
          simp only [mainPass, h, List.mem_cons] at hx
          rcases hx with hx | hx
          · exact hx ▸ List.mem_cons_self _ _
          · exact List.mem_cons_of_mem _ (ih _ x hx)

theorem mainPass_attempts_sublist (env : Env) (t d : Text) (ev : Text → AttemptEvent) :
    ∀ (fs : List Text) (st : St),
      List.Sublist (mainPass env t d ev fs st).attempts (fs.map stem) := by
  intro fs
  induction fs with
  | nil => intro st; simp [mainPass]
  | cons f fs ih =>
      intro st
      cases h : check_job_status (getDir st (stem f)) with
      | completed =>
          simp only [mainPass, h, List.map_cons]
          exact List.Sublist.cons _ (ih st)
      | running =>
          simp only [mainPass, h, List.map_cons]
          exact List.Sublist.cons _ (ih st)
      | ready =>
          simp only [mainPass, h, List.map_cons]
          exact List.Sublist.cons₂ _ (ih _)

theorem mainPass_countId_zero (env : Env) (t d : Text) (ev : Text → AttemptEvent)
    (fs : List Text) (st : St) (x : Text) (hx : x ∉ fs.map stem) :
    countId x (mainPass env t d ev fs st).attempts = 0 :=
  countId_eq_zero x _ (fun hmem => hx (mainPass_attempts_mem env t d ev fs st x hmem))

theorem mainPass_countId_one (env : Env) (t d : Text) (ev : Text → AttemptEvent) :
    ∀ (fs : List Text) (st : St) (f : Text), f ∈ fs → (fs.map stem).Nodup →
      check_job_status (getDir st (stem f)) = .ready →
      countId (stem f) (mainPass env t d ev fs st).attempts = 1 := by
  intro fs
  induction fs with
  | nil => intro st f hf _ _; simp at hf
  | cons g gs ih =>
      intro st f hf hnd hready
      simp only [List.map_cons, List.nodup_cons] at hnd
      obtain ⟨hgn, hnd2⟩ := hnd
      by_cases hgf : stem g = stem f
      · have hst : check_job_status (getDir st (stem g)) = .ready := by
          rw [hgf]; exact hready
        have h0 : countId (stem f)
            (mainPass env t d ev gs (setDir st (stem g)
              (run_single_prediction env t d (ev (stem g)) (getDir st (stem g))).dir)).attempts = 0 :=
          mainPass_countId_zero env t d ev gs _ (stem f) (hgf ▸ hgn)
        simp only [mainPass, hst, countId]
        rw [if_pos hgf, h0]
      · have hf2 : f ∈ gs := by
          rcases List.mem_cons.mp hf with h | h
          · exact absurd (by rw [h]) hgf
          · exact h
        cases hst : check_job_status (getDir st (stem g)) with
        | completed =>
            simp only [mainPass, hst]
            exact ih st f hf2 hnd2 hready
        | running =>
            simp only [mainPass, hst]
            exact ih st f hf2 hnd2 hready
        | ready =>
            have hpres : check_job_status (getDir (setDir st (stem g)
                (run_single_prediction env t d (ev (stem g)) (getDir st (stem g))).dir)
                (stem f)) = .ready := by
              rw [getDir_setDir_ne _ _ _ _ hgf]; exact hready
            have := ih (setDir st (stem g)
              (run_single_prediction env t d (ev (stem g)) (getDir st (stem g))).dir)
              f hf2 hnd2 hpres
            simp only [mainPass, hst, countId, hgf, if_neg, if_false]
            omega

theorem mainPass_attempts_congr (env1 env2 : Env) (t1 t2 d1 d2 : Text)
    (ev1 ev2 : Text → AttemptEvent) :
    ∀ (fs : List Text) (st1 st2 : St),
      (∀ f ∈ fs, getDir st1 (stem f) = getDir st2 (stem f)) → (fs.map stem).Nodup →
      (mainPass env1 t1 d1 ev1 fs st1).attempts =
        (mainPass env2 t2 d2 ev2 fs st2).attempts := by
  intro fs
  induction fs with
  | nil => intro st1 st2 _ _; simp [mainPass]
  | cons g gs ih =>
      intro st1 st2 hagree hnd
      simp only [List.map_cons, List.nodup_cons] at hnd
      obtain ⟨hgn, hnd2⟩ := hnd
      have hg : getDir st1 (stem g) = getDir st2 (stem g) :=
        hagree g (List.mem_cons_self _ _)
      have htail : ∀ f ∈ gs, getDir st1 (stem f) = getDir st2 (stem f) :=
        fun f hf => hagree f (List.mem_cons_of_mem _ hf)
      cases hst : check_job_status (getDir st1 (stem g)) with
      | completed =>
          have hst2 : check_job_status (getDir st2 (stem g)) = .completed := by
            rw [← hg]; exact hst
          simp only [mainPass, hst, hst2]
          exact ih st1 st2 htail hnd2
      | running =>
          have hst2 : check_job_status (getDir st2 (stem g)) = .running := by
            rw [← hg]; exact hst
          simp only [mainPass, hst, hst2]
          exact ih st1 st2 htail hnd2
      | ready =>
          have hst2 : check_job_status (getDir st2 (stem g)) = .ready := by
            rw [← hg]; exact hst
          simp only [mainPass, hst, hst2]
          have hnew : ∀ f ∈ gs,
              getDir (setDir st1 (stem g)
                (run_single_prediction env1 t1 d1 (ev1 (stem g)) (getDir st1 (stem g))).dir)
                (stem f) =
              getDir (setDir st2 (stem g)
                (run_single_prediction env2 t2 d2 (ev2 (stem g)) (getDir st2 (stem g))).dir)
                (stem f) := by
            intro f hf
            have hne : stem g ≠ stem f :=
              fun he => hgn (he ▸ List.mem_map_of_mem stem hf)
            rw [getDir_setDir_ne _ _ _ _ hne, getDir_setDir_ne _ _ _ _ hne]
            exact htail f hf
          rw [ih _ _ hnew hnd2]

theorem mainPass_all_completed (env : Env) (t d : Text) (ev : Text → AttemptEvent) :
    ∀ (fs : List Text) (st : St),
      (∀ f ∈ fs, check_job_status (getDir st (stem f)) = .completed) →
      mainPass env t d ev fs st = ⟨st, 0, 0, fs.length, []⟩ := by
  intro fs
  induction fs with
  | nil => intro st _; simp [mainPass]
  | cons g gs ih =>
      intro st hall
      have hg : check_job_status (getDir st (stem g)) = .completed :=
        hall g (List.mem_cons_self _ _)
      simp only [mainPass, hg]
      rw [ih st (fun f hf => hall f (List.mem_cons_of_mem _ hf))]
      simp

theorem clearRunningAll_frame :
    ∀ (fs : List Text) (st : St) (id : Text), id ∉ fs.map stem →
      getDir (clearRunningAll fs st) id = getDir st id := by
  intro fs
  induction fs with
  | nil => intro st id _; rfl
  | cons g gs ih =>
      intro st id hid
      simp only [List.map_cons, List.mem_cons, not_or] at hid
      obtain ⟨h1, h2⟩ := hid
      simp only [clearRunningAll]
      by_cases hst : check_job_status (getDir st (stem g)) = .running
      · rw [if_pos hst, ih _ _ h2, getDir_setDir_ne _ _ _ _ (fun he => h1 he.symm)]
      · rw [if_neg hst, ih _ _ h2]

theorem clearRunningAll_clears :
    ∀ (fs : List Text) (st : St) (f : Text), f ∈ fs → (fs.map stem).Nodup →
      check_job_status (getDir st (stem f)) = .running →
      getDir (clearRunningAll fs st) (stem f) =
        { getDir st (stem f) with running := none } := by
  intro fs
  induction fs with
  | nil => intro st f hf _ _; simp at hf
  | cons g gs ih =>
      intro st f hf hnd hrun
      simp only [List.map_cons, List.nodup_cons] at hnd
      obtain ⟨hgn, hnd2⟩ := hnd
      by_cases hgf : stem g = stem f
      · have hrg : check_job_status (getDir st (stem g)) = .running := by
          rw [hgf]; exact hrun
        simp only [clearRunningAll, if_pos hrg]
        rw [clearRunningAll_frame gs _ (stem f) (hgf ▸ hgn), hgf, getDir_setDir_same]
      · have hf2 : f ∈ gs := by
          rcases List.mem_cons.mp hf with h | h
          · exact absurd (by rw [h]) hgf
          · exact h
        simp only [clearRunningAll]
        by_cases hrg : check_job_status (getDir st (stem g)) = .running
        · rw [if_pos hrg]
          have hpres : check_job_status (getDir (setDir st (stem g)
              { getDir st (stem g) with running := none }) (stem f)) = .running := by
            rw [getDir_setDir_ne _ _ _ _ hgf]; exact hrun
          rw [ih _ f hf2 hnd2 hpres, getDir_setDir_ne _ _ _ _ hgf]
        · rw [if_neg hrg]
          exact ih st f hf2 hnd2 hrun

theorem runningCount_pos (fs : List Text) (st : St) (f : Text) (hf : f ∈ fs)
    (hrun : check_job_status (getDir st (stem f)) = .running) :
    0 < runningCount fs st := by
  have hmem : f ∈ fs.filter
      (fun f => check_job_status (getDir st (stem f)) = .running) :=
    List.mem_filter.mpr ⟨hf, by simp [hrun]⟩
  exact List.length_pos_of_mem hmem

theorem sortFiles_isEmpty_false (l : List Text) (h : l ≠ []) :
    (sortFiles l).isEmpty = false := by
  have h0 : l.length ≠ 0 := fun hx => h (List.length_eq_zero.mp hx)
  cases hq : sortFiles l with
  | nil =>
      have hlen := length_sortFiles l
      rw [hq] at hlen
      exact absurd hlen.symm h0
  | cons a as => rfl

theorem mainRun_nonempty (env : Env) (t dur : Text) (ev : Text → AttemptEvent)
    (files : List Text) (st : St) (h : (sortFiles files).isEmpty = false) :
    mainRun env t dur ev files st =
      { state := (mainPass env t dur ev (sortFiles files) (recoveredState files st)).state
        successCnt := (mainPass env t dur ev (sortFiles files) (recoveredState files st)).successCnt
        failedCnt := (mainPass env t dur ev (sortFiles files) (recoveredState files st)).failedCnt
        skippedCnt := (mainPass env t dur ev (sortFiles files) (recoveredState files st)).skippedCnt
        attempts := (mainPass env t dur ev (sortFiles files) (recoveredState files st)).attempts
        exit := 0 } := by
  simp [mainRun, h]

theorem extract_error_message_le (d : JobDir) (m : Text)
    (h : extract_error_message d = some m) : m.length ≤ 200 := by
  unfold extract_error_message at h
  by_cases h1 : d.done.isSome = true
  · rw [if_pos h1] at h
    exact absurd h (by simp)
  · rw [if_neg h1] at h
    by_cases h2 : d.running.isSome = true
    · rw [if_pos h2] at h
      exact absurd h (by simp)
    · rw [if_neg h2] at h
      cases he : d.error with
      | none =>
          rw [he] at h
          exact absurd h (by simp)
      | some c =>
          rw [he] at h
          simp only [Option.some.injEq] at h
          subst h
          rw [List.length_take]
          omega

/-- A configuration with both required values set. -/
def envFull : Env := ⟨some (str "/db"), some (str "/af")⟩

/-- A configuration missing the database directory. -/
def envNoDB : Env := ⟨none, some (str "/af")⟩

/-- A job directory holding all four markers at once. -/
def allMarkers : JobDir :=
  ⟨some (str "d"), some (str "r"), some (str "e"), some (str "t"), []⟩

/-- C1: both status checks resolve marker coexistence by the fixed
precedence Done over Running over Error over Timeout over NotStarted: a
present done marker always yields completed, an absent done marker with a
present running marker always yields running, and below those the
extractor distinguishes error, then timeout, then not started, while the
batch runner maps all three retryable cases to ready. -/
theorem status_precedence_C1 (d : JobDir) :
    (d.done.isSome = true →
      check_job_status d = .completed ∧ extract_status d = .completed) ∧
    (d.done.isSome = false → d.running.isSome = true →
      check_job_status d = .running ∧ extract_status d = .running) ∧
    (d.done.isSome = false → d.running.isSome = false → d.error.isSome = true →
      extract_status d = .failed ∧ check_job_status d = .ready) ∧
    (d.done.isSome = false → d.running.isSome = false → d.error.isSome = false →
      d.timeout.isSome = true →
      extract_status d = .timedout ∧ check_job_status d = .ready) ∧
    (d.done.isSome = false → d.running.isSome = false → d.error.isSome = false →
      d.timeout.isSome = false →
      extract_status d = .not_started ∧ check_job_status d = .ready) := by
  refine ⟨?_, ?_, ?_, ?_, ?_⟩
  · intro h1
    simp [check_job_status, extract_status, h1]
  · intro h1 h2
    simp [check_job_status, extract_status, h1, h2]
  · intro h1 h2 h3
    simp [check_job_status, extract_status, h1, h2, h3]
  · intro h1 h2 h3 h4
    simp [check_job_status, extract_status, h1, h2, h3, h4]
  · intro h1 h2 h3 h4
    simp [check_job_status, extract_status, h1, h2, h3, h4]

/-- C1 witness: on a directory holding all four markers at once, the done
marker wins in both status checks. -/
theorem status_precedence_C1_witness :
    allMarkers.done.isSome = true ∧
    check_job_status allMarkers = .completed ∧ extract_status allMarkers = .completed :=
  ⟨by decide, (status_precedence_C1 allMarkers).1 (by decide)⟩

/-- C4: on every resolution of an attempt (engine success, engine non-zero
exit, timeout, or a fault in staging, configuration lookup, or
collection), the job boundary returns with both per-attempt scratch
directories removed: the release in the finally block runs on every exit
path. -/
theorem scratch_cleanup_C4 (env : Env) (t dur : Text) (ev : AttemptEvent) (d : JobDir) :
    (run_single_prediction env t dur ev d).scratchInputLeft = false ∧
    (run_single_prediction env t dur ev d).scratchOutputLeft = false := by
  cases hr : resolveAttempt env ev <;>
    simp [run_single_prediction, finallyRelease, hr]

/-- C10: an attempt that does not return success copies nothing from the
scratch output location into the permanent output directory: the
non-marker contents of the job directory are unchanged, as the result copy
happens only in the zero-exit branch. -/
theorem no_partial_output_C10 (env : Env) (t dur : Text) (ev : AttemptEvent) (d : JobDir)
    (h : (run_single_prediction env t dur ev d).success = false) :
    (run_single_prediction env t dur ev d).dir.files = d.files := by
  cases hr : resolveAttempt env ev <;>
    simp [run_single_prediction, finallyRelease, hr] at h ⊢

/-- C10 witness: a concrete failing attempt (engine exit code 1) leaves the
permanent non-marker contents untouched. -/
theorem no_partial_output_C10_witness :
    (run_single_prediction envFull [] [] (.engineExit 1 [] [] [str "out"])
      emptyJobDir).success = false ∧
    (run_single_prediction envFull [] [] (.engineExit 1 [] [] [str "out"])
      emptyJobDir).dir.files = emptyJobDir.files :=
  ⟨by decide, no_partial_output_C10 envFull [] [] (.engineExit 1 [] [] [str "out"])
    emptyJobDir (by decide)⟩

set_option maxRecDepth 20000 in
/-- C7 counterexample: the claim says the recorded diagnostic text is
bounded by roughly 200 characters, but the error marker written on a
non-zero exit records the full stdout and stderr: with a 250-character
stderr its content exceeds 200 characters. -/
theorem bounded_diagnostic_C7_counterexample :
    (run_single_prediction envFull [] [] (.engineExit 1 [] (List.replicate 250 'x') [])
      emptyJobDir).success = false ∧
    200 < ((run_single_prediction envFull [] []
      (.engineExit 1 [] (List.replicate 250 'x') []) emptyJobDir).dir.error.getD []).length := by
  decide

/-- C7 amended: a zero engine exit returns success and a non-zero exit
returns failure, as claimed; but the attempt itself records the unbounded
stdout and stderr in the error marker, and the 200-character bound applies
to the error message the score extractor later derives, by truncating the
marker content with strip and a take of 200. -/
theorem exit_code_outcome_C7 (env : Env) (t dur out err : Text) (ofs : List Text)
    (rc : Int) (d : JobDir) (db af : Text)
    (hdb : env.DB_DIR = some db) (haf : env.ALPHAFOLD_DIR = some af) :
    ((run_single_prediction env t dur (.engineExit rc out err ofs) d).success = true ↔
      rc = 0) ∧
    (∀ m : Text,
      extract_error_message
        (run_single_prediction env t dur (.engineExit rc out err ofs) d).dir = some m →
      m.length ≤ 200) := by
  constructor
  · by_cases h0 : rc = 0
    · subst h0
      have hres : resolveAttempt env (.engineExit 0 out err ofs) = .success out err ofs := by
        simp [resolveAttempt, hdb, haf]
      simp [run_single_prediction, finallyRelease, hres]
    · have hres : resolveAttempt env (.engineExit rc out err ofs) = .engineFail rc out err := by
        simp [resolveAttempt, hdb, haf, h0]
      simp [run_single_prediction, finallyRelease, hres, h0]
  · intro m hm
    exact extract_error_message_le _ m hm

/-- C7 witness: the amended statement at exit code 1 with full
configuration. -/
theorem exit_code_outcome_C7_witness :
    envFull.DB_DIR = some (str "/db") ∧
    ((run_single_prediction envFull [] [] (.engineExit 1 [] [] []) emptyJobDir).success = true ↔
      (1 : Int) = 0) :=
  ⟨rfl, (exit_code_outcome_C7 envFull [] [] [] [] [] 1 emptyJobDir
    (str "/db") (str "/af") rfl rfl).1⟩

/-- C5: an attempt whose engine subprocess times out returns failure (so
the loop counts it as failed), writes the timeout marker, removes the
running marker, and leaves the job in an effective status that is not
running for either status check; on a one-job catalog the pass records one
failed and zero successful predictions. -/
theorem timeout_enforcement_C5 (env : Env) (t dur : Text) (evf : Text → AttemptEvent)
    (f : Text) (st : St) (d : JobDir) (db af : Text)
    (hdb : env.DB_DIR = some db) (haf : env.ALPHAFOLD_DIR = some af)
    (hev : evf (stem f) = .engineTimeout)
    (hd : getDir st (stem f) = d)
    (hdone : d.done = none) (hrunm : d.running = none) :
    (run_single_prediction env t dur .engineTimeout d).success = false ∧
    (run_single_prediction env t dur .engineTimeout d).dir.timeout.isSome = true ∧
    (run_single_prediction env t dur .engineTimeout d).dir.running = none ∧
    check_job_status (run_single_prediction env t dur .engineTimeout d).dir ≠ .running ∧
    extract_status (run_single_prediction env t dur .engineTimeout d).dir ≠ .running ∧
    (mainPass env t dur evf [f] st).failedCnt = 1 ∧
    (mainPass env t dur evf [f] st).successCnt = 0 := by
  have hres : resolveAttempt env AttemptEvent.engineTimeout = .timedOut := by
    simp [resolveAttempt, hdb, haf]
  have hdir : (run_single_prediction env t dur .engineTimeout d).dir =
      { d with running := none, timeout := some (timeoutContent t) } := by
    simp [run_single_prediction, finallyRelease, hres]
  have hready : check_job_status (getDir st (stem f)) = .ready := by
    rw [hd]
    simp [check_job_status, hdone, hrunm]
  have hsucc : (run_single_prediction env t dur (evf (stem f))
      (getDir st (stem f))).success = false := by
    rw [hd, hev]
    simp [run_single_prediction, finallyRelease, hres]
  refine ⟨?_, ?_, ?_, ?_, ?_, ?_, ?_⟩
  · simp [run_single_prediction, finallyRelease, hres]
  · rw [hdir]
    rfl
  · rw [hdir]
  · rw [hdir]
    simp [check_job_status, hdone]
  · rw [hdir]
    cases he : d.error <;> simp [extract_status, hdone, he]
  · simp [mainPass, hready, hsucc]
  · simp [mainPass, hready, hsucc]

/-- C5 witness: the timeout behaviour at a concrete ready job with full
configuration. -/
theorem timeout_enforcement_C5_witness :
    emptyJobDir.done = none ∧
    ((run_single_prediction envFull [] [] .engineTimeout emptyJobDir).success = false ∧
     (run_single_prediction envFull [] [] .engineTimeout emptyJobDir).dir.timeout.isSome = true ∧
     (run_single_prediction envFull [] [] .engineTimeout emptyJobDir).dir.running = none ∧
     check_job_status (run_single_prediction envFull [] [] .engineTimeout emptyJobDir).dir ≠
       .running ∧
     extract_status (run_single_prediction envFull [] [] .engineTimeout emptyJobDir).dir ≠
       .running ∧
     (mainPass envFull [] [] (fun _ => .engineTimeout) [str "a.json"] []).failedCnt = 1 ∧
     (mainPass envFull [] [] (fun _ => .engineTimeout) [str "a.json"] []).successCnt = 0) :=
  ⟨rfl, timeout_enforcement_C5 envFull [] [] (fun _ => .engineTimeout) (str "a.json") []
    emptyJobDir (str "/db") (str "/af") rfl rfl rfl rfl rfl rfl⟩

set_option maxRecDepth 20000 in
/-- C6 counterexample: with the database directory unset, a run over a
one-job catalog does not abort before the main pass: the job is attempted,
the KeyError is recorded as that job's error marker, the run counts one
failure, and the process still exits 0. -/
theorem config_fatal_C6_counterexample :
    (mainRun envNoDB [] [] (fun _ => .engineExit 0 [] [] []) [str "j1.json"] []).exit = 0 ∧
    (mainRun envNoDB [] [] (fun _ => .engineExit 0 [] [] []) [str "j1.json"] []).failedCnt = 1 ∧
    (mainRun envNoDB [] [] (fun _ => .engineExit 0 [] [] []) [str "j1.json"] []).attempts =
      [str "j1"] ∧
    (getDir (mainRun envNoDB [] [] (fun _ => .engineExit 0 [] [] []) [str "j1.json"] []).state
      (str "j1")).error.isSome = true := by
  decide

/-- A configuration missing the engine installation location. -/
def envNoAF : Env := ⟨some (str "/db"), none⟩

theorem resolveAttempt_fault_of_missing (env : Env) (ev : AttemptEvent)
    (hmiss : env.DB_DIR = none ∨ env.ALPHAFOLD_DIR = none) :
    ∃ m, resolveAttempt env ev = .fault m := by
  cases ev with
  | stageFault m => exact ⟨m, by simp [resolveAttempt]⟩
  | engineExit rc out err ofs =>
      cases hdb : env.DB_DIR with
      | none => exact ⟨str "KeyError: DB_DIR", by simp [resolveAttempt, hdb]⟩
      | some db =>
          cases haf : env.ALPHAFOLD_DIR with
          | none =>
              exact ⟨str "KeyError: ALPHAFOLD_DIR", by simp [resolveAttempt, hdb, haf]⟩
          | some af =>
              rcases hmiss with h | h
              · rw [hdb] at h
                exact absurd h (by simp)
              · rw [haf] at h
                exact absurd h (by simp)
  | engineTimeout =>
      cases hdb : env.DB_DIR with
      | none => exact ⟨str "KeyError: DB_DIR", by simp [resolveAttempt, hdb]⟩
      | some db =>
          cases haf : env.ALPHAFOLD_DIR with
          | none =>
              exact ⟨str "KeyError: ALPHAFOLD_DIR", by simp [resolveAttempt, hdb, haf]⟩
          | some af =>
              rcases hmiss with h | h
              · rw [hdb] at h
                exact absurd h (by simp)
              · rw [haf] at h
                exact absurd h (by simp)
  | collectFault m =>
      cases hdb : env.DB_DIR with
      | none => exact ⟨str "KeyError: DB_DIR", by simp [resolveAttempt, hdb]⟩
      | some db =>
          cases haf : env.ALPHAFOLD_DIR with
          | none =>
              exact ⟨str "KeyError: ALPHAFOLD_DIR", by simp [resolveAttempt, hdb, haf]⟩
          | some af =>
              rcases hmiss with h | h
              · rw [hdb] at h
                exact absurd h (by simp)
              · rw [haf] at h
                exact absurd h (by simp)

/-- C6 amended: a missing required configuration value (the database
directory or the engine installation location) is not a pre-pass fatal
error; both environment lookups happen inside the per-job try block, so
with either value unset every attempt fails with the job's error marker
written and the running marker removed, and the run over any non-empty
catalog still completes with exit code 0. -/
theorem config_fatal_C6 (env : Env) (t dur : Text) (ev : AttemptEvent) (d : JobDir)
    (evf : Text → AttemptEvent) (files : List Text) (st : St)
    (hmiss : env.DB_DIR = none ∨ env.ALPHAFOLD_DIR = none) (hne : files ≠ []) :
    (run_single_prediction env t dur ev d).success = false ∧
    (run_single_prediction env t dur ev d).dir.error.isSome = true ∧
    (run_single_prediction env t dur ev d).dir.running = none ∧
    (mainRun env t dur evf files st).exit = 0 := by
  obtain ⟨m, hm⟩ := resolveAttempt_fault_of_missing env ev hmiss
  refine ⟨?_, ?_, ?_, ?_⟩
  · simp [run_single_prediction, finallyRelease, hm]
  · simp [run_single_prediction, finallyRelease, hm]
  · simp [run_single_prediction, finallyRelease, hm]
  · rw [mainRun_nonempty env t dur evf files st (sortFiles_isEmpty_false files hne)]

/-- C6 witness for the amended statement: one concrete attempt and one-job
run with the database directory unset, and the same with the engine
installation location unset. -/
theorem config_fatal_C6_witness :
    (envNoDB.DB_DIR = none ∨ envNoDB.ALPHAFOLD_DIR = none) ∧
    ((run_single_prediction envNoDB [] [] (.engineExit 0 [] [] []) emptyJobDir).success = false ∧
     (run_single_prediction envNoDB [] [] (.engineExit 0 [] [] []) emptyJobDir).dir.error.isSome =
       true ∧
     (run_single_prediction envNoDB [] [] (.engineExit 0 [] [] []) emptyJobDir).dir.running =
       none ∧
     (mainRun envNoDB [] [] (fun _ => .engineExit 0 [] [] []) [str "j1.json"] []).exit = 0) ∧
    ((run_single_prediction envNoAF [] [] (.engineExit 0 [] [] []) emptyJobDir).success = false ∧
     (run_single_prediction envNoAF [] [] (.engineExit 0 [] [] []) emptyJobDir).dir.error.isSome =
       true ∧
     (run_single_prediction envNoAF [] [] (.engineExit 0 [] [] []) emptyJobDir).dir.running =
       none ∧
     (mainRun envNoAF [] [] (fun _ => .engineExit 0 [] [] []) [str "j1.json"] []).exit = 0) :=
  ⟨Or.inl rfl,
   config_fatal_C6 envNoDB [] [] (.engineExit 0 [] [] []) emptyJobDir
     (fun _ => .engineExit 0 [] [] []) [str "j1.json"] [] (Or.inl rfl) (by simp),
   config_fatal_C6 envNoAF [] [] (.engineExit 0 [] [] []) emptyJobDir
     (fun _ => .engineExit 0 [] [] []) [str "j1.json"] [] (Or.inr rfl) (by simp)⟩

/-- C2: a job whose effective status at startup is running has its running
marker removed by the recovery pass before the main pass begins, and is
then attempted exactly once in the same run. -/
theorem resumability_C2 (env : Env) (t dur : Text) (ev : Text → AttemptEvent)
    (files : List Text) (st : St) (f : Text)
    (hf : f ∈ files)
    (hnd : ((sortFiles files).map stem).Nodup)
    (hrun : check_job_status (getDir st (stem f)) = .running) :
    (getDir (recoveredState files st) (stem f)).running = none ∧
    countId (stem f) (mainRun env t dur ev files st).attempts = 1 := by
  have hfs : f ∈ sortFiles files := (mem_sortFiles f files).mpr hf
  have hpos : 0 < runningCount (sortFiles files) st := runningCount_pos _ st f hfs hrun
  have hrec : recoveredState files st = clearRunningAll (sortFiles files) st := by
    simp [recoveredState, hpos]
  have hclear : getDir (clearRunningAll (sortFiles files) st) (stem f) =
      { getDir st (stem f) with running := none } :=
    clearRunningAll_clears _ st f hfs hnd hrun
  have hdone : (getDir st (stem f)).done.isSome = false := by
    by_contra hx
    rw [Bool.not_eq_false] at hx
    simp [check_job_status, hx] at hrun
  have hready : check_job_status (getDir (recoveredState files st) (stem f)) = .ready := by
    rw [hrec, hclear]
    simp [check_job_status, hdone]
  constructor
  · rw [hrec, hclear]
  · have hne : files ≠ [] := fun hx => by rw [hx] at hf; simp at hf
    rw [mainRun_nonempty env t dur ev files st (sortFiles_isEmpty_false files hne)]
    exact mainPass_countId_one env t dur ev (sortFiles files) (recoveredState files st)
      f hfs hnd hready

/-- A one-job state with a stale running marker, as left by an interrupted
previous process instance. -/
def recoverSt : St := [(str "j1", { emptyJobDir with running := some (str "r") })]

/-- C2 witness: recovery and exactly one attempt at a concrete stale job. -/
theorem resumability_C2_witness :
    check_job_status (getDir recoverSt (stem (str "j1.json"))) = .running ∧
    (getDir (recoveredState [str "j1.json"] recoverSt) (stem (str "j1.json"))).running = none ∧
    countId (stem (str "j1.json"))
      (mainRun envFull [] [] (fun _ => .engineExit 0 [] [] [])
        [str "j1.json"] recoverSt).attempts = 1 := by
  have h := resumability_C2 envFull [] [] (fun _ => .engineExit 0 [] [] [])
    [str "j1.json"] recoverSt (str "j1.json") (by decide) (by decide) (by decide)
  exact ⟨by decide, h.1, h.2⟩

/-- C3: over any catalog and any assignment of per-job outcomes, a single
pass counts every job exactly once: successful plus failed plus skipped
equals the catalog size, the attempted jobs are exactly the successful
plus failed ones, and (for distinct job ids) every job is either attempted
or was in a skip status after recovery — no failing job ever prevents a
later job from being attempted. -/
theorem isolation_counters_C3 (env : Env) (t dur : Text) (ev : Text → AttemptEvent)
    (files : List Text) (st : St) :
    (mainRun env t dur ev files st).successCnt + (mainRun env t dur ev files st).failedCnt +
      (mainRun env t dur ev files st).skippedCnt = files.length ∧
    (mainRun env t dur ev files st).attempts.length =
      (mainRun env t dur ev files st).successCnt + (mainRun env t dur ev files st).failedCnt ∧
    (((sortFiles files).map stem).Nodup →
      ∀ f ∈ files, stem f ∈ (mainRun env t dur ev files st).attempts ∨
        check_job_status (getDir (recoveredState files st) (stem f)) ≠ .ready) := by
  by_cases hl : files = []
  · subst hl
    simp [mainRun, sortFiles]
  · rw [mainRun_nonempty env t dur ev files st (sortFiles_isEmpty_false files hl)]
    refine ⟨?_, ?_, ?_⟩
    · rw [← length_sortFiles files]
      exact mainPass_counts env t dur ev (sortFiles files) (recoveredState files st)
    · exact mainPass_attempts_length env t dur ev (sortFiles files) (recoveredState files st)
    · intro hnd f hf
      by_cases hready : check_job_status (getDir (recoveredState files st) (stem f)) = .ready
      · left
        show stem f ∈ (mainPass env t dur ev (sortFiles files) (recoveredState files st)).attempts
        have hfs := (mem_sortFiles f files).mpr hf
        have hcount := mainPass_countId_one env t dur ev (sortFiles files)
          (recoveredState files st) f hfs hnd hready
        exact mem_of_countId_pos _ _ (by omega)
      · right
        exact hready

/-- A one-job state whose job a is already done. -/
def stDoneA : St := [(str "a", { emptyJobDir with done := some (str "d") })]

/-- C3 witness: the counters identity and the attempted-or-skipped
disjunction on a concrete two-job catalog where a is done and b fails. -/
theorem isolation_counters_C3_witness :
    (mainRun envFull [] [] (fun _ => .engineExit 1 [] [] [])
        [str "a.json", str "b.json"] stDoneA).successCnt +
      (mainRun envFull [] [] (fun _ => .engineExit 1 [] [] [])
        [str "a.json", str "b.json"] stDoneA).failedCnt +
      (mainRun envFull [] [] (fun _ => .engineExit 1 [] [] [])
        [str "a.json", str "b.json"] stDoneA).skippedCnt = 2 ∧
    (stem (str "b.json") ∈ (mainRun envFull [] [] (fun _ => .engineExit 1 [] [] [])
        [str "a.json", str "b.json"] stDoneA).attempts ∨
      check_job_status (getDir (recoveredState [str "a.json", str "b.json"] stDoneA)
        (stem (str "b.json"))) ≠ .ready) := by
  have h := isolation_counters_C3 envFull [] [] (fun _ => .engineExit 1 [] [] [])
    [str "a.json", str "b.json"] stDoneA
  exact ⟨h.1, h.2.2 (by decide) (str "b.json") (by decide)⟩

set_option maxRecDepth 20000 in
/-- C8 counterexample: job ids are the artifact stems, but the loop order
is the ascending order of the full file names; with ids ab and ab.c the
ascending id order is [ab, ab.c] while the files are attempted in the
order [ab.c, ab], because ab.c.json sorts before ab.json. -/
theorem id_order_C8_counterexample :
    [str "ab.json", str "ab.c.json"].map stem = [str "ab", str "ab.c"] ∧
    sortFiles [str "ab", str "ab.c"] = [str "ab", str "ab.c"] ∧
    (mainRun envFull [] [] (fun _ => .engineExit 0 [] [] [])
        [str "ab.json", str "ab.c.json"] []).attempts = [str "ab.c", str "ab"] ∧
    [str "ab.c", str "ab"] ≠ [str "ab", str "ab.c"] := by
  decide

/-- C8 amended: the main pass attempts jobs in the fixed ascending
lexicographic order of the input artifact file names, not of the job ids,
and this order is deterministic: it is identical across runs that differ
in environment, clock strings, and every per-job outcome. -/
theorem deterministic_order_C8 (env1 env2 : Env) (t1 t2 d1 d2 : Text)
    (ev1 ev2 : Text → AttemptEvent) (files : List Text) (st : St)
    (hnd : ((sortFiles files).map stem).Nodup) :
    (mainRun env1 t1 d1 ev1 files st).attempts = (mainRun env2 t2 d2 ev2 files st).attempts ∧
    List.Sublist (mainRun env1 t1 d1 ev1 files st).attempts ((sortFiles files).map stem) := by
  by_cases hl : files = []
  · subst hl
    simp [mainRun, sortFiles]
  · have hni := sortFiles_isEmpty_false files hl
    rw [mainRun_nonempty env1 t1 d1 ev1 files st hni,
      mainRun_nonempty env2 t2 d2 ev2 files st hni]
    exact ⟨mainPass_attempts_congr env1 env2 t1 t2 d1 d2 ev1 ev2 (sortFiles files) _ _
        (fun f _ => rfl) hnd,
      mainPass_attempts_sublist env1 t1 d1 ev1 (sortFiles files) _⟩

/-- C8 witness: two runs over the same catalog, one fully configured and
succeeding, one misconfigured, attempt the same jobs in the same order. -/
theorem deterministic_order_C8_witness :
    (mainRun envFull [] [] (fun _ => .engineExit 0 [] [] []) [str "a.json"] []).attempts =
      (mainRun envNoDB [] [] (fun _ => .engineTimeout) [str "a.json"] []).attempts ∧
    List.Sublist (mainRun envFull [] [] (fun _ => .engineExit 0 [] [] [])
      [str "a.json"] []).attempts ((sortFiles [str "a.json"]).map stem) :=
  deterministic_order_C8 envFull envNoDB [] [] [] [] (fun _ => .engineExit 0 [] [] [])
    (fun _ => .engineTimeout) [str "a.json"] [] (by decide)

/-- C9: over a catalog in which every job already has a done marker, a
full run attempts nothing (the engine is never invoked) and returns the
durable state exactly as it was. -/
theorem idempotence_C9 (env : Env) (t dur : Text) (ev : Text → AttemptEvent)
    (files : List Text) (st : St)
    (hall : ∀ f ∈ files, (getDir st (stem f)).done.isSome = true) :
    (mainRun env t dur ev files st).attempts = [] ∧
    (mainRun env t dur ev files st).state = st ∧
    (mainRun env t dur ev files st).successCnt = 0 ∧
    (mainRun env t dur ev files st).failedCnt = 0 := by
  by_cases hl : files = []
  · subst hl
    simp [mainRun, sortFiles]
  · have hni := sortFiles_isEmpty_false files hl
    have hallS : ∀ f ∈ sortFiles files,
        check_job_status (getDir st (stem f)) = .completed := by
      intro f hf
      have hd := hall f ((mem_sortFiles f files).mp hf)
      simp [check_job_status, hd]
    have hrc : runningCount (sortFiles files) st = 0 := by
      unfold runningCount
      rw [List.length_eq_zero, List.filter_eq_nil_iff]
      intro f hf
      simp [hallS f hf]
    have hrec : recoveredState files st = st := by
      simp [recoveredState, hrc]
    rw [mainRun_nonempty env t dur ev files st hni, hrec,
      mainPass_all_completed env t dur ev (sortFiles files) st hallS]
    exact ⟨rfl, rfl, rfl, rfl⟩

/-- C9 witness: a concrete all-done catalog is left untouched with zero
attempts even though the oracle would fail every job. -/
theorem idempotence_C9_witness :
    (∀ f ∈ [str "a.json"], (getDir stDoneA (stem f)).done.isSome = true) ∧
    (mainRun envFull [] [] (fun _ => .engineExit 1 [] [] [])
      [str "a.json"] stDoneA).attempts = [] ∧
    (mainRun envFull [] [] (fun _ => .engineExit 1 [] [] [])
      [str "a.json"] stDoneA).state = stDoneA := by
  have h := idempotence_C9 envFull [] [] (fun _ => .engineExit 1 [] [] [])
    [str "a.json"] stDoneA (by decide)
  exact ⟨by decide, h.1, h.2.1⟩

end AF3
